import Mathlib

/-!
Verification of the MySnooze sleep scheduler (MySnooze.cpp / MySnooze.h).

The development shallowly embeds the four layers of the code:

* `doPowerDown`   — `_doPowerDown(wdto)`: one hardware watchdog sleep cycle;
  the asynchronous interrupt context is modelled by an environment function
  `Env.flag` giving the value the volatile byte `wokeUpWhy` holds after the
  k-th hardware sleep cycle (the ISR is the only writer during a cycle).
* `myPowerDown`   — one quantum: sleep once, report the flag, and correct
  the Arduino `timer0_millis` counter when the quantum was not interrupted.
* `myInternalSleep` — the greedy decomposition of a requested duration into
  watchdog quanta (a `while` loop of 8000 ms naps, then a chain of one-shot
  `if`s for 4000 … 15 ms), calling the weak `tick()` callback after every
  8000 ms nap and once more before returning.
* `mySleep` / `snooze` — flag clearing, indefinite mode, and the outer
  transport-readiness guard.

Machine integers: `wokeUpWhy` is a `uint8_t` (values taken `% 256`),
`timer0_millis` an `unsigned long`/`uint32_t` (values taken `% 2^32`),
return codes are `int8_t` (the `uint8 → int8` cast is `toInt8`).
A `St.trace` of events instruments the runs: one `Ev.hwSleep` per hardware
sleep cycle, one `Ev.tickCall` per callback invocation, and one
`Ev.schedulerInvoked` at the single call site of the Scheduler in `snooze`.
-/

/-- Modulus of the AVR `unsigned long` (uint32) arithmetic. -/
def UINT32_MOD : Nat := 4294967296

/-- avr-libc watchdog timeout selector for 15 ms. -/
def WDTO_15MS : Nat := 0

/-- avr-libc watchdog timeout selector for 30 ms. -/
def WDTO_30MS : Nat := 1

/-- avr-libc watchdog timeout selector for 60 ms. -/
def WDTO_60MS : Nat := 2

/-- avr-libc watchdog timeout selector for 120 ms. -/
def WDTO_120MS : Nat := 3

/-- avr-libc watchdog timeout selector for 250 ms. -/
def WDTO_250MS : Nat := 4

/-- avr-libc watchdog timeout selector for 500 ms. -/
def WDTO_500MS : Nat := 5

/-- avr-libc watchdog timeout selector for 1 s. -/
def WDTO_1S : Nat := 6

/-- avr-libc watchdog timeout selector for 2 s. -/
def WDTO_2S : Nat := 7

/-- avr-libc watchdog timeout selector for 4 s. -/
def WDTO_4S : Nat := 8

/-- avr-libc watchdog timeout selector for 8 s. -/
def WDTO_8S : Nat := 9

/-- `#define WDTO_SLEEP_FOREVER (0xFFu)` from MySnooze.cpp. -/
def WDTO_SLEEP_FOREVER : Nat := 255

/-- Modelled from the spec: the `TimerExpired` terminal reason.  The numeric
sentinel comes from the external MySensors core (`MY_WAKE_UP_BY_TIMER`),
which is not part of this repository; only its distinctness matters here. -/
def MY_WAKE_UP_BY_TIMER : Int := -1

/-- Modelled from the spec: the `SleepNotPossible` terminal reason.  The
numeric sentinel comes from the external MySensors core
(`MY_SLEEP_NOT_POSSIBLE`), not part of this repository. -/
def MY_SLEEP_NOT_POSSIBLE : Int := -2

/-- The C `uint8_t → int8_t` conversion (two's complement reinterpretation),
used where `wokeUpWhy` is returned through an `int8_t`. -/
def toInt8 (n : Nat) : Int :=
  if n % 256 < 128 then (n % 256 : Int) else (n % 256 : Int) - 256

/-- Instrumentation events of a run. -/
inductive Ev where
  | hwSleep (wdto : Nat)
  | tickCall (v : Int)
  | schedulerInvoked (ms : Nat)
deriving DecidableEq

/-- The environment: everything outside the module that the code observes.
`flag k` is the value the ISR context left in the volatile byte `wokeUpWhy`
when the k-th hardware sleep cycle ends (`0` when no interrupt fired);
`tick` is the weak application callback (`none` when not linked), giving the
value returned by its k-th invocation; `transportReady j` is the result of
the j-th `isTransportReady()` call; `hwMillis j` the result of the j-th
`hwMillis()` call. -/
structure Env where
  flag : Nat → Nat
  tick : Option (Nat → Int)
  transportReady : Nat → Bool
  hwMillis : Nat → Nat

/-- The module state: the volatile `wokeUpWhy` byte, the Arduino
`timer0_millis` counter, counters of hardware sleep cycles and callback
invocations performed so far (indices into `Env.flag` / `Env.tick`), and
the instrumentation trace. -/
structure St where
  wokeUpWhy : Nat
  timer0_millis : Nat
  nSleeps : Nat
  nTicks : Nat
  trace : List Ev
deriving DecidableEq

/-- Initial state: flag clear, counters zero, empty trace. -/
def St0 : St :=
  { wokeUpWhy := 0, timer0_millis := 0, nSleeps := 0, nTicks := 0, trace := [] }

/-- `_doPowerDown(wdto)`: one hardware sleep cycle.  On return `wokeUpWhy`
holds whatever the interrupt context wrote during the cycle (a `uint8_t`,
hence `% 256`); the cycle is recorded in the trace. -/
def doPowerDown (env : Env) (s : St) (wdto : Nat) : St :=
  { s with
    wokeUpWhy := env.flag s.nSleeps % 256
    nSleeps := s.nSleeps + 1
    trace := s.trace ++ [Ev.hwSleep wdto] }

/-- `myPowerDown(wdto, ms)`: sleep once; if `wokeUpWhy` is non-zero return
it (as `int8_t`), otherwise add the nominal duration to `timer0_millis`
(uint32 arithmetic) and return 0. -/
def myPowerDown (env : Env) (s : St) (wdto : Nat) (ms : Nat) : Int × St :=
  let s1 := doPowerDown env s wdto
  if s1.wokeUpWhy ≠ 0 then
    (toInt8 s1.wokeUpWhy, s1)
  else
    (0, { s1 with timer0_millis := (s1.timer0_millis + ms) % UINT32_MOD })

/-- One occurrence of `tick ? tick() : 0` (resp. `tick && (why = tick())`):
when the weak `tick` symbol is absent nothing happens and the value is 0;
otherwise `tick()` is invoked and its value returned. -/
def callTick (env : Env) (s : St) : Int × St :=
  match env.tick with
  | none => (0, s)
  | some f =>
      (f s.nTicks,
       { s with
         nTicks := s.nTicks + 1
         trace := s.trace ++ [Ev.tickCall (f s.nTicks)] })

/-- The one-shot `if` chain of `myInternalSleep`, as (selector, duration)
pairs in source order. -/
def smallTable : List (Nat × Nat) :=
  [(WDTO_4S, 4000), (WDTO_2S, 2000), (WDTO_1S, 1000), (WDTO_500MS, 500),
   (WDTO_250MS, 250), (WDTO_120MS, 120), (WDTO_60MS, 60), (WDTO_30MS, 30),
   (WDTO_15MS, 15)]

/-- The sequential one-shot `if (ms >= q) { if ((why=myPowerDown(w,q))) return why; ms -= q; }`
blocks of `myInternalSleep`, over the remaining table.  Returns the early
return value (if any), the state, and the remaining duration. -/
def runChain (env : Env) : St → Nat → List (Nat × Nat) → Option Int × St × Nat
  | s, ms, [] => (none, s, ms)
  | s, ms, (w, q) :: rest =>
      if q ≤ ms then
        let p := myPowerDown env s w q
        if p.1 ≠ 0 then (some p.1, p.2, ms)
        else runChain env p.2 (ms - q) rest
      else runChain env s ms rest

/-- `myInternalSleep(ms)`: the `while (ms >= 8000)` loop (8 s nap, early
return on interrupt, `tick()` check, `ms -= 8000`), then the one-shot chain,
then the final `return tick ? tick() : 0`. -/
def myInternalSleep (env : Env) (s : St) (ms : Nat) : Int × St :=
  if h : 8000 ≤ ms then
    let p := myPowerDown env s WDTO_8S 8000
    if p.1 ≠ 0 then p
    else
      let t := callTick env p.2
      if t.1 ≠ 0 then t
      else myInternalSleep env t.2 (ms - 8000)
  else
    let c := runChain env s ms smallTable
    match c.1 with
    | some why => (why, c.2.1)
    | none => callTick env c.2.1
termination_by ms
decreasing_by omega

/-- `mySleep(ms)`: clear `wokeUpWhy`, run either the timed decomposition
(`ms > 0`) or one indefinite sleep (`ms == 0`), clear `wokeUpWhy` again,
and map a zero reason to `MY_WAKE_UP_BY_TIMER`. -/
def mySleep (env : Env) (s : St) (ms : Nat) : Int × St :=
  let s0 := { s with wokeUpWhy := 0 }
  if 0 < ms then
    let p := myInternalSleep env s0 ms
    ((if p.1 ≠ 0 then p.1 else MY_WAKE_UP_BY_TIMER), { p.2 with wokeUpWhy := 0 })
  else
    let s1 := doPowerDown env s0 WDTO_SLEEP_FOREVER
    let why := toInt8 s1.wokeUpWhy
    ((if why ≠ 0 then why else MY_WAKE_UP_BY_TIMER), { s1 with wokeUpWhy := 0 })

/-- The transport-readiness wait loop of `snooze`: while the transport is
not ready and `sleepDeltaMS` is below both the requested duration and the
reconnect timeout, `_process()` and re-read `hwMillis()` (uint32
subtraction of the entry time).  `j` numbers the loop iterations (the j-th
condition test uses the j-th `isTransportReady` call, the j-th body the
j-th `hwMillis` call); `fuel` bounds the number of tests, `none` meaning
the loop was still running when fuel ran out. -/
def waitLoop (env : Env) (timeout ms enter : Nat) : Nat → Nat → Nat → Option Nat
  | _, _, 0 => none
  | delta, j, fuel + 1 =>
      if env.transportReady j = false ∧ delta < ms ∧ delta < timeout then
        waitLoop env timeout ms enter
          ((env.hwMillis j % UINT32_MOD + (UINT32_MOD - enter)) % UINT32_MOD)
          (j + 1) fuel
      else some delta

/-- `snooze(sleepingMS, smartSleep)`: if the transport is not ready, wait
(bounded by the requested duration and by the reconnect timeout,
`MY_SLEEP_TRANSPORT_RECONNECT_TIMEOUT_MS`, passed here as the `timeout`
parameter since its value lives in the external MySensors configuration);
abort with `MY_SLEEP_NOT_POSSIBLE` when no sleeping time is left, otherwise
sleep the remainder.  `sendHeartbeat`/`wait`/`transportDisable`/
`setIndication` are external calls without observable effect on the
modelled state.  The single call site of the Scheduler (`mySleep`) is
recorded as `Ev.schedulerInvoked`. -/
def snooze (env : Env) (timeout fuel : Nat) (sleepingMS : Nat) (smart : Bool)
    (s : St) : Option (Int × St) :=
  if env.transportReady 0 then
    some (mySleep env
      { s with trace := s.trace ++ [Ev.schedulerInvoked sleepingMS] } sleepingMS)
  else
    let enter := env.hwMillis 0 % UINT32_MOD
    match waitLoop env timeout sleepingMS enter 0 1 fuel with
    | none => none
    | some delta =>
        if delta < sleepingMS then
          some (mySleep env
            { s with trace := s.trace ++ [Ev.schedulerInvoked (sleepingMS - delta)] }
            (sleepingMS - delta))
        else some (MY_SLEEP_NOT_POSSIBLE, s)

/-- Nominal milliseconds of a watchdog selector (the pairings used at the
`myPowerDown` call sites of MySnooze.cpp). -/
def wdtoMS (w : Nat) : Nat :=
  if w = WDTO_8S then 8000
  else if w = WDTO_4S then 4000
  else if w = WDTO_2S then 2000
  else if w = WDTO_1S then 1000
  else if w = WDTO_500MS then 500
  else if w = WDTO_250MS then 250
  else if w = WDTO_120MS then 120
  else if w = WDTO_60MS then 60
  else if w = WDTO_30MS then 30
  else if w = WDTO_15MS then 15
  else 0

/-- Number of hardware sleep events in a trace. -/
def nSleepEv : List Ev → Nat
  | [] => 0
  | Ev.hwSleep _ :: r => nSleepEv r + 1
  | Ev.tickCall _ :: r => nSleepEv r
  | Ev.schedulerInvoked _ :: r => nSleepEv r

/-- Number of callback invocation events in a trace. -/
def nTickEv : List Ev → Nat
  | [] => 0
  | Ev.hwSleep _ :: r => nTickEv r
  | Ev.tickCall _ :: r => nTickEv r + 1
  | Ev.schedulerInvoked _ :: r => nTickEv r

/-- Sum of the nominal durations of the hardware sleeps in a trace. -/
def sleptMS : List Ev → Nat
  | [] => 0
  | Ev.hwSleep w :: r => wdtoMS w + sleptMS r
  | Ev.tickCall _ :: r => sleptMS r
  | Ev.schedulerInvoked _ :: r => sleptMS r

/-- The nominal durations of the hardware sleeps in a trace, in order. -/
def quantaMS : List Ev → List Nat
  | [] => []
  | Ev.hwSleep w :: r => wdtoMS w :: quantaMS r
  | Ev.tickCall _ :: r => quantaMS r
  | Ev.schedulerInvoked _ :: r => quantaMS r

/-- Effect of a trace on `timer0_millis`: each completed hardware sleep
adds its nominal duration in uint32 arithmetic. -/
def applySlept : Nat → List Ev → Nat
  | t, [] => t
  | t, Ev.hwSleep w :: r => applySlept ((t + wdtoMS w) % UINT32_MOD) r
  | t, Ev.tickCall _ :: r => applySlept t r
  | t, Ev.schedulerInvoked _ :: r => applySlept t r

/-- The tick events produced by one `tick()` site when every invocation
returns 0 (`h` = the weak symbol is linked). -/
def tickEvs (h : Bool) : List Ev := if h then [Ev.tickCall 0] else []

/-- Events of an uninterrupted pass through the one-shot chain. -/
def chainEvents : Nat → List (Nat × Nat) → List Ev
  | _, [] => []
  | ms, (w, q) :: rest =>
      if q ≤ ms then Ev.hwSleep w :: chainEvents (ms - q) rest
      else chainEvents ms rest

/-- Remaining duration after an uninterrupted pass through the chain. -/
def chainRem : Nat → List (Nat × Nat) → Nat
  | ms, [] => ms
  | ms, (_, q) :: rest =>
      if q ≤ ms then chainRem (ms - q) rest else chainRem ms rest

/-- Events of `n` uninterrupted iterations of the 8000 ms loop. -/
def loopEvents (h : Bool) : Nat → List Ev
  | 0 => []
  | n + 1 => Ev.hwSleep WDTO_8S :: (tickEvs h ++ loopEvents h n)

/-- Events of a whole uninterrupted `myInternalSleep(ms)` run. -/
def eventsOf (h : Bool) (ms : Nat) : List Ev :=
  loopEvents h (ms / 8000) ++ chainEvents (ms % 8000) smallTable ++ tickEvs h

/-- The residue dropped by the decomposition of `ms` (the value of the
local `ms` when `myInternalSleep` falls off the end uninterrupted). -/
def decompRem (ms : Nat) : Nat := chainRem (ms % 8000) smallTable

/-- Sum `8000·k` plus an at-most-once selection of the sub-8000 table
entries: exactly the durations the decomposition can sleep in full. -/
def subsetSum (b4000 b2000 b1000 b500 b250 b120 b60 b30 b15 : Bool) : Nat :=
  (cond b4000 4000 0) + (cond b2000 2000 0) + (cond b1000 1000 0) +
  (cond b500 500 0) + (cond b250 250 0) + (cond b120 120 0) +
  (cond b60 60 0) + (cond b30 30 0) + (cond b15 15 0)

/-- `ms` is exactly representable by the decomposition: some number of
8000 ms quanta plus distinct smaller table entries. -/
def Representable (ms : Nat) : Prop :=
  ∃ (k : Nat) (b4000 b2000 b1000 b500 b250 b120 b60 b30 b15 : Bool),
    ms = 8000 * k + subsetSum b4000 b2000 b1000 b500 b250 b120 b60 b30 b15

/-- Every callback invocation the environment can produce returns 0. -/
def TickZero (env : Env) : Prop := ∀ (f : Nat → Int) (k : Nat), env.tick = some f → f k = 0

/-- No interrupt is ever observed: the flag reads as 0 after every cycle. -/
def FlagZero (env : Env) : Prop := ∀ k, env.flag k % 256 = 0

/-- Quiet environment: no interrupts, no callback, transport ready. -/
def env0 : Env :=
  { flag := fun _ => 0, tick := none, transportReady := fun _ => true,
    hwMillis := fun _ => 0 }

/-- Like `env0` but with a linked callback that always returns 0. -/
def envT : Env := { env0 with tick := some fun _ => 0 }

/-- An interrupt environment: every sleep cycle ends with the flag at 5. -/
def envI : Env := { env0 with flag := fun _ => 5 }

/-- A callback-interrupt environment: the callback always returns 7. -/
def envK : Env := { env0 with tick := some fun _ => 7 }

/-- Transport never ready; `hwMillis` advances 10000 per call. -/
def envC2 : Env :=
  { flag := fun _ => 0, tick := none, transportReady := fun _ => false,
    hwMillis := fun j => 10000 * j }

/-- Transport never ready; `hwMillis` advances 6000 per call. -/
def envW : Env :=
  { flag := fun _ => 0, tick := none, transportReady := fun _ => false,
    hwMillis := fun j => 6000 * j }

/-- The uninterrupted-run characterization of `myInternalSleep ms`: result
0, and the state advanced exactly by the events of `eventsOf`. -/
def InternalOk (env : Env) (ms : Nat) : Prop :=
  ∀ s : St, s.wokeUpWhy = 0 →
    myInternalSleep env s ms =
      (0,
       { s with
         wokeUpWhy := 0
         timer0_millis := applySlept s.timer0_millis (eventsOf env.tick.isSome ms)
         nSleeps := s.nSleeps + nSleepEv (eventsOf env.tick.isSome ms)
         nTicks := s.nTicks + nTickEv (eventsOf env.tick.isSome ms)
         trace := s.trace ++ eventsOf env.tick.isSome ms })

/-- Interval propagation through the one-shot chain: an upper bound on the
entering remainder yields an upper bound on the leaving remainder. -/
def boundProp : Nat → List (Nat × Nat) → Nat
  | B, [] => B
  | B, (_, q) :: rest => boundProp (max (B - q) q) rest

/-! ## Basic lemmas -/

theorem toInt8_eq_zero (n : Nat) : toInt8 n = 0 ↔ n % 256 = 0 := by
  unfold toInt8
  split <;> omega

theorem nSleepEv_append (a b : List Ev) :
    nSleepEv (a ++ b) = nSleepEv a + nSleepEv b := by
  induction a with
  | nil => simp [nSleepEv]
  | cons e r ih => cases e <;> simp [nSleepEv, ih] <;> omega

theorem nTickEv_append (a b : List Ev) :
    nTickEv (a ++ b) = nTickEv a + nTickEv b := by
  induction a with
  | nil => simp [nTickEv]
  | cons e r ih => cases e <;> simp [nTickEv, ih] <;> omega

theorem sleptMS_append (a b : List Ev) :
    sleptMS (a ++ b) = sleptMS a + sleptMS b := by
  induction a with
  | nil => simp [sleptMS]
  | cons e r ih => cases e <;> simp [sleptMS, ih] <;> omega

theorem quantaMS_append (a b : List Ev) :
    quantaMS (a ++ b) = quantaMS a ++ quantaMS b := by
  induction a with
  | nil => simp [quantaMS]
  | cons e r ih => cases e <;> simp [quantaMS, ih]

theorem applySlept_append (t : Nat) (a b : List Ev) :
    applySlept t (a ++ b) = applySlept (applySlept t a) b := by
  induction a generalizing t with
  | nil => simp [applySlept]
  | cons e r ih => cases e <;> simp [applySlept, ih]

/-! ## Claim theorems: the quantum sleeper (`myPowerDown`) -/

/-- C6: after one quantum, `timer0_millis` is advanced by the nominal
duration (uint32 arithmetic) exactly when the Wake Flag reads 0 at the end
of the quantum, and is left unchanged when the flag is non-zero; apart from
the clock, the flag observation, the cycle counter and the trace record,
nothing else changes (in particular the callback counter is untouched). -/
theorem clock_adjust_iff_flag_zero (env : Env) (s : St) (wdto ms : Nat) :
    (myPowerDown env s wdto ms).1 =
      (if env.flag s.nSleeps % 256 = 0 then 0
       else toInt8 (env.flag s.nSleeps % 256)) ∧
    (myPowerDown env s wdto ms).2.timer0_millis =
      (if env.flag s.nSleeps % 256 = 0 then (s.timer0_millis + ms) % UINT32_MOD
       else s.timer0_millis) ∧
    (myPowerDown env s wdto ms).2.nTicks = s.nTicks ∧
    (myPowerDown env s wdto ms).2.wokeUpWhy = env.flag s.nSleeps % 256 ∧
    (myPowerDown env s wdto ms).2.nSleeps = s.nSleeps + 1 ∧
    (myPowerDown env s wdto ms).2.trace = s.trace ++ [Ev.hwSleep wdto] := by
  by_cases h : env.flag s.nSleeps % 256 = 0 <;>
    simp [myPowerDown, doPowerDown, h]

/-- C9: the quantum sleeper returns exactly the value the Wake Flag holds
right after the low-power cycle (as the `int8_t` cast), and it never writes
the flag itself: the flag after the call is whatever the interrupt context
left in the `uint8_t` during the cycle. -/
theorem powerDown_reports_flag (env : Env) (s : St) (wdto ms : Nat) :
    (myPowerDown env s wdto ms).2.wokeUpWhy = env.flag s.nSleeps % 256 ∧
    (myPowerDown env s wdto ms).1 =
      toInt8 ((myPowerDown env s wdto ms).2.wokeUpWhy) := by
  by_cases h : env.flag s.nSleeps % 256 = 0 <;>
    simp [myPowerDown, doPowerDown, h, toInt8]

/-! ## Claim theorems: `mySleep` flag hygiene and indefinite mode -/

/-- C5: the Wake Flag is cleared before the first quantum — so the result
of a sleep request does not depend on whatever value a previous request
left in the flag — and it is cleared again after the terminal reason is
determined, so every `mySleep` ends with the flag at its zero sentinel. -/
theorem wake_flag_cleared (env : Env) (s : St) (ms v w : Nat) :
    mySleep env { s with wokeUpWhy := v } ms =
      mySleep env { s with wokeUpWhy := w } ms ∧
    (mySleep env s ms).2.wokeUpWhy = 0 := by
  constructor
  · rfl
  · by_cases h : 0 < ms <;> simp [mySleep, h]

/-- C8 (amended): `mySleep(0)` performs exactly one indefinite-mode
(watchdog-disabled) hardware sleep, invokes the periodic callback zero
times, and returns the observed Wake Flag value when it is non-zero — but
when the flag reads zero on waking it returns `MY_WAKE_UP_BY_TIMER`
instead of the flag value. -/
theorem indefinite_sleep_behavior (env : Env) (s : St) :
    mySleep env s 0 =
      ((if env.flag s.nSleeps % 256 = 0 then MY_WAKE_UP_BY_TIMER
        else toInt8 (env.flag s.nSleeps % 256)),
       { s with wokeUpWhy := 0, nSleeps := s.nSleeps + 1,
                trace := s.trace ++ [Ev.hwSleep WDTO_SLEEP_FOREVER] }) := by
  by_cases h : env.flag s.nSleeps % 256 = 0
  · simp [mySleep, doPowerDown, h, toInt8]
  · have hne : toInt8 (env.flag s.nSleeps % 256) ≠ 0 := by
      rw [Ne, toInt8_eq_zero]; omega
    simp [mySleep, doPowerDown, h, hne]

/-- C8 counterexample: with the flag observed as 0 on waking from the
indefinite sleep, `mySleep(0)` returns `MY_WAKE_UP_BY_TIMER` (-1), which is
not the observed Wake Flag value (0) — refuting "returns the Wake Flag
value observed on waking" as stated.  The other two parts (one indefinite
sleep, zero callback invocations) do hold on this run. -/
theorem indefinite_counterexample :
    mySleep env0 St0 0 =
      (MY_WAKE_UP_BY_TIMER,
       { St0 with nSleeps := 1, trace := [Ev.hwSleep WDTO_SLEEP_FOREVER] }) ∧
    (mySleep env0 St0 0).2.wokeUpWhy = 0 ∧
    (mySleep env0 St0 0).2.nTicks = 0 ∧
    (mySleep env0 St0 0).1 ≠ toInt8 ((mySleep env0 St0 0).2.wokeUpWhy) := by
  refine ⟨?_, ?_, ?_, ?_⟩ <;> decide

/-! ## Unfolding lemmas for the decomposition -/

theorem myInternalSleep_ge (env : Env) (s : St) (ms : Nat) (h8 : 8000 ≤ ms) :
    myInternalSleep env s ms =
      (if (myPowerDown env s WDTO_8S 8000).1 ≠ 0 then myPowerDown env s WDTO_8S 8000
       else if (callTick env (myPowerDown env s WDTO_8S 8000).2).1 ≠ 0 then
         callTick env (myPowerDown env s WDTO_8S 8000).2
       else myInternalSleep env (callTick env (myPowerDown env s WDTO_8S 8000).2).2
         (ms - 8000)) := by
  conv_lhs => rw [myInternalSleep.eq_def]
  simp [h8]

theorem myInternalSleep_lt (env : Env) (s : St) (ms : Nat) (h8 : ms < 8000) :
    myInternalSleep env s ms =
      (match (runChain env s ms smallTable).1 with
       | some why => (why, (runChain env s ms smallTable).2.1)
       | none => callTick env (runChain env s ms smallTable).2.1) := by
  conv_lhs => rw [myInternalSleep.eq_def]
  simp [Nat.not_le.mpr h8]

theorem loopEvents_succ_assoc (h : Bool) (n : Nat) (a b : List Ev) :
    loopEvents h (n + 1) ++ a ++ b =
      Ev.hwSleep WDTO_8S :: (tickEvs h ++ (loopEvents h n ++ a ++ b)) := by
  simp [loopEvents, List.append_assoc]

theorem eventsOf_ge (h : Bool) (ms : Nat) (hms : 8000 ≤ ms) :
    eventsOf h ms = Ev.hwSleep WDTO_8S :: (tickEvs h ++ eventsOf h (ms - 8000)) := by
  have h1 : ms / 8000 = (ms - 8000) / 8000 + 1 := by omega
  have h2 : ms % 8000 = (ms - 8000) % 8000 := by omega
  rw [eventsOf, eventsOf, h1, h2, loopEvents_succ_assoc]

theorem eventsOf_lt (h : Bool) (ms : Nat) (hms : ms < 8000) :
    eventsOf h ms = chainEvents ms smallTable ++ tickEvs h := by
  have h1 : ms / 8000 = 0 := by omega
  have h2 : ms % 8000 = ms := by omega
  rw [eventsOf, h1, h2]
  simp [loopEvents]

theorem nTickEv_chain (tbl : List (Nat × Nat)) : ∀ ms, nTickEv (chainEvents ms tbl) = 0 := by
  induction tbl with
  | nil => intro ms; simp [chainEvents, nTickEv]
  | cons p rest ih =>
      intro ms
      obtain ⟨w, q⟩ := p
      by_cases hq : q ≤ ms <;> simp [chainEvents, hq, nTickEv, ih]

/-! ## Uninterrupted runs -/

theorem runChain_ok (env : Env) (hf : FlagZero env) :
    ∀ (tbl : List (Nat × Nat)), (∀ p ∈ tbl, wdtoMS p.1 = p.2) →
    ∀ (s : St) (ms : Nat), s.wokeUpWhy = 0 →
    runChain env s ms tbl =
      (none,
       { s with
         wokeUpWhy := 0
         timer0_millis := applySlept s.timer0_millis (chainEvents ms tbl)
         nSleeps := s.nSleeps + nSleepEv (chainEvents ms tbl)
         trace := s.trace ++ chainEvents ms tbl },
       chainRem ms tbl) := by
  intro tbl
  induction tbl with
  | nil =>
      intro _ s ms hw
      obtain ⟨w0, t0, n0, k0, tr0⟩ := s
      simp only [St.mk.injEq] at hw ⊢
      simp [runChain, chainEvents, chainRem, applySlept, nSleepEv, hw]
  | cons p rest ih =>
      intro hwq s ms hw
      obtain ⟨w, q⟩ := p
      have hwdto : wdtoMS w = q := hwq (w, q) (by simp)
      have hrest : ∀ p ∈ rest, wdtoMS p.1 = p.2 := fun p hp => hwq p (by simp [hp])
      by_cases hq : q ≤ ms
      · have hfl : env.flag s.nSleeps % 256 = 0 := hf s.nSleeps
        have hp : myPowerDown env s w q =
            (0, { s with
                  wokeUpWhy := 0
                  timer0_millis := (s.timer0_millis + q) % UINT32_MOD
                  nSleeps := s.nSleeps + 1
                  trace := s.trace ++ [Ev.hwSleep w] }) := by
          simp [myPowerDown, doPowerDown, hfl]
        rw [runChain, if_pos hq]
        rw [hp]
        simp only [ne_eq, not_true_eq_false, ite_false, if_neg (by simp : ¬(0 : Int) ≠ 0)]
        rw [ih hrest _ (ms - q) rfl]
        simp [chainEvents, chainRem, hq, nSleepEv, applySlept, hwdto,
          List.append_assoc, St.mk.injEq]
        omega
      · rw [runChain, if_neg hq]
        rw [ih hrest s ms hw]
        simp [chainEvents, chainRem, hq]

theorem smallTable_wdto : ∀ p ∈ smallTable, wdtoMS p.1 = p.2 := by decide


theorem tickEvs_false : tickEvs false = ([] : List Ev) := rfl

theorem tickEvs_true : tickEvs true = [Ev.tickCall 0] := rfl

theorem wdtoMS_8S : wdtoMS WDTO_8S = 8000 := rfl

theorem applySlept_cons_sleep (t w : Nat) (r : List Ev) :
    applySlept t (Ev.hwSleep w :: r) = applySlept ((t + wdtoMS w) % UINT32_MOD) r := rfl

theorem applySlept_cons_tick (t : Nat) (v : Int) (r : List Ev) :
    applySlept t (Ev.tickCall v :: r) = applySlept t r := rfl

theorem nSleepEv_cons_sleep (w : Nat) (r : List Ev) :
    nSleepEv (Ev.hwSleep w :: r) = nSleepEv r + 1 := rfl

theorem nSleepEv_cons_tick (v : Int) (r : List Ev) :
    nSleepEv (Ev.tickCall v :: r) = nSleepEv r := rfl

theorem nTickEv_cons_sleep (w : Nat) (r : List Ev) :
    nTickEv (Ev.hwSleep w :: r) = nTickEv r := rfl

theorem nTickEv_cons_tick (v : Int) (r : List Ev) :
    nTickEv (Ev.tickCall v :: r) = nTickEv r + 1 := rfl

/-- What one uninterrupted iteration of the 8000 ms loop contributes to the
final state, with the rest of the run's events abstracted as `r` (no weak
callback case). -/
theorem stepAsm (s : St) (r : List Ev) :
    ((0 : Int),
     ({ wokeUpWhy := 0
        timer0_millis := applySlept ((s.timer0_millis + 8000) % UINT32_MOD) r
        nSleeps := (s.nSleeps + 1) + nSleepEv r
        nTicks := s.nTicks + nTickEv r
        trace := (s.trace ++ [Ev.hwSleep WDTO_8S]) ++ r } : St)) =
    ((0 : Int),
     ({ wokeUpWhy := 0
        timer0_millis := applySlept s.timer0_millis (Ev.hwSleep WDTO_8S :: r)
        nSleeps := s.nSleeps + nSleepEv (Ev.hwSleep WDTO_8S :: r)
        nTicks := s.nTicks + nTickEv (Ev.hwSleep WDTO_8S :: r)
        trace := s.trace ++ (Ev.hwSleep WDTO_8S :: r) } : St)) := by
  rw [applySlept_cons_sleep, nSleepEv_cons_sleep, nTickEv_cons_sleep, wdtoMS_8S]
  rw [List.append_assoc]
  simp only [List.cons_append, List.nil_append]
  have h4 : (s.nSleeps + 1) + nSleepEv r = s.nSleeps + (nSleepEv r + 1) := by omega
  rw [h4]

/-- Same, in the presence of the weak callback (one `tick()` event). -/
theorem stepAsmTick (s : St) (r : List Ev) :
    ((0 : Int),
     ({ wokeUpWhy := 0
        timer0_millis := applySlept ((s.timer0_millis + 8000) % UINT32_MOD) r
        nSleeps := (s.nSleeps + 1) + nSleepEv r
        nTicks := (s.nTicks + 1) + nTickEv r
        trace := ((s.trace ++ [Ev.hwSleep WDTO_8S]) ++ [Ev.tickCall 0]) ++ r } : St)) =
    ((0 : Int),
     ({ wokeUpWhy := 0
        timer0_millis := applySlept s.timer0_millis (Ev.hwSleep WDTO_8S :: Ev.tickCall 0 :: r)
        nSleeps := s.nSleeps + nSleepEv (Ev.hwSleep WDTO_8S :: Ev.tickCall 0 :: r)
        nTicks := s.nTicks + nTickEv (Ev.hwSleep WDTO_8S :: Ev.tickCall 0 :: r)
        trace := s.trace ++ (Ev.hwSleep WDTO_8S :: Ev.tickCall 0 :: r) } : St)) := by
  rw [applySlept_cons_sleep, applySlept_cons_tick, nSleepEv_cons_sleep, nSleepEv_cons_tick,
    nTickEv_cons_sleep, nTickEv_cons_tick, wdtoMS_8S]
  rw [List.append_assoc, List.append_assoc]
  simp only [List.cons_append, List.nil_append]
  have h4 : (s.nSleeps + 1) + nSleepEv r = s.nSleeps + (nSleepEv r + 1) := by omega
  have h5 : (s.nTicks + 1) + nTickEv r = s.nTicks + (nTickEv r + 1) := by omega
  rw [h4, h5]

theorem internal_ok_lt (env : Env) (hf : FlagZero env) (ht : TickZero env)
    (ms : Nat) (h8 : ms < 8000) : InternalOk env ms := by
  intro s hw
  rw [myInternalSleep_lt env s ms h8]
  rw [runChain_ok env hf smallTable smallTable_wdto s ms hw]
  dsimp only
  cases htk : env.tick with
  | none =>
      have hct : ∀ x : St, callTick env x = (0, x) := by
        intro x; simp [callTick, htk]
      rw [hct]
      rw [eventsOf_lt _ ms h8]
      simp [htk, tickEvs, nSleepEv, nTickEv, applySlept, nTickEv_chain,
        nSleepEv_append, nTickEv_append, applySlept_append,
        List.append_assoc, St.mk.injEq]
  | some f =>
      have hv : ∀ k, f k = 0 := fun k => ht f k htk
      have hct : ∀ x : St, callTick env x =
          (0, { x with
                nTicks := x.nTicks + 1
                trace := x.trace ++ [Ev.tickCall 0] }) := by
        intro x; simp [callTick, htk, hv]
      rw [hct]
      rw [eventsOf_lt _ ms h8]
      simp [htk, tickEvs, nSleepEv, nTickEv, applySlept, nTickEv_chain,
        nSleepEv_append, nTickEv_append, applySlept_append,
        List.append_assoc, St.mk.injEq]


/-- Assembly helper: one 8000 ms quantum prepended to an abstract rest `r`
of the run (no callback), with the full event list `e` given by hypothesis. -/
theorem asmGenH (s : St) (r e : List Ev) (he : e = Ev.hwSleep WDTO_8S :: r) :
    ((0 : Int),
     ({ wokeUpWhy := 0
        timer0_millis := applySlept ((s.timer0_millis + 8000) % UINT32_MOD) r
        nSleeps := (s.nSleeps + 1) + nSleepEv r
        nTicks := s.nTicks + nTickEv r
        trace := (s.trace ++ [Ev.hwSleep WDTO_8S]) ++ r } : St)) =
    ((0 : Int),
     ({ wokeUpWhy := 0
        timer0_millis := applySlept s.timer0_millis e
        nSleeps := s.nSleeps + nSleepEv e
        nTicks := s.nTicks + nTickEv e
        trace := s.trace ++ e } : St)) := by
  subst he
  exact stepAsm s r

/-- Assembly helper: one 8000 ms quantum plus one callback invocation
prepended to an abstract rest `r` of the run. -/
theorem asmGenHTick (s : St) (r e : List Ev)
    (he : e = Ev.hwSleep WDTO_8S :: Ev.tickCall 0 :: r) :
    ((0 : Int),
     ({ wokeUpWhy := 0
        timer0_millis := applySlept ((s.timer0_millis + 8000) % UINT32_MOD) r
        nSleeps := (s.nSleeps + 1) + nSleepEv r
        nTicks := (s.nTicks + 1) + nTickEv r
        trace := ((s.trace ++ [Ev.hwSleep WDTO_8S]) ++ [Ev.tickCall 0]) ++ r } : St)) =
    ((0 : Int),
     ({ wokeUpWhy := 0
        timer0_millis := applySlept s.timer0_millis e
        nSleeps := s.nSleeps + nSleepEv e
        nTicks := s.nTicks + nTickEv e
        trace := s.trace ++ e } : St)) := by
  subst he
  exact stepAsmTick s r


theorem consNilTick (x : Ev) (r : List Ev) : x :: (tickEvs false ++ r) = x :: r := by
  rw [tickEvs_false]
  simp only [List.nil_append]

theorem consOneTick (x : Ev) (r : List Ev) :
    x :: (tickEvs true ++ r) = x :: Ev.tickCall 0 :: r := by
  rw [tickEvs_true]
  simp only [List.cons_append, List.nil_append]

theorem internal_ok_ge (env : Env) (hf : FlagZero env) (ht : TickZero env)
    (ms : Nat) (h8 : 8000 ≤ ms) (prev : InternalOk env (ms - 8000)) :
    InternalOk env ms := by
  intro s hw
  have hfl : env.flag s.nSleeps % 256 = 0 := hf s.nSleeps
  have hp : myPowerDown env s WDTO_8S 8000 =
      (0, { s with
            wokeUpWhy := 0
            timer0_millis := (s.timer0_millis + 8000) % UINT32_MOD
            nSleeps := s.nSleeps + 1
            trace := s.trace ++ [Ev.hwSleep WDTO_8S] }) := by
    simp [myPowerDown, doPowerDown, hfl]
  cases htk : env.tick with
  | none =>
      have hct : ∀ x : St, callTick env x = (0, x) := by
        intro x; simp [callTick, htk]
      have hstep : myInternalSleep env s ms =
          myInternalSleep env
            { s with
              wokeUpWhy := 0
              timer0_millis := (s.timer0_millis + 8000) % UINT32_MOD
              nSleeps := s.nSleeps + 1
              trace := s.trace ++ [Ev.hwSleep WDTO_8S] } (ms - 8000) := by
        rw [myInternalSleep_ge env s ms h8, hp, hct]
        dsimp only
        rw [if_neg (by omega : ¬((0 : Int) ≠ 0)),
          if_neg (by omega : ¬((0 : Int) ≠ 0))]
      have hrec := prev
        { s with
          wokeUpWhy := 0
          timer0_millis := (s.timer0_millis + 8000) % UINT32_MOD
          nSleeps := s.nSleeps + 1
          trace := s.trace ++ [Ev.hwSleep WDTO_8S] } rfl
      rw [htk] at hrec
      simp only [Option.isSome_none] at hrec
      have he : eventsOf false ms =
          Ev.hwSleep WDTO_8S :: eventsOf false (ms - 8000) :=
        (eventsOf_ge false ms h8).trans (consNilTick _ _)
      have hasm :=
        asmGenH s (eventsOf false (ms - 8000)) (eventsOf false ms) he
      exact hstep.trans (hrec.trans hasm)
  | some f =>
      have hv : ∀ k, f k = 0 := fun k => ht f k htk
      have hct : ∀ x : St, callTick env x =
          (0, { x with
                nTicks := x.nTicks + 1
                trace := x.trace ++ [Ev.tickCall 0] }) := by
        intro x; simp [callTick, htk, hv]
      have hstep : myInternalSleep env s ms =
          myInternalSleep env
            { s with
              wokeUpWhy := 0
              timer0_millis := (s.timer0_millis + 8000) % UINT32_MOD
              nSleeps := s.nSleeps + 1
              nTicks := s.nTicks + 1
              trace := (s.trace ++ [Ev.hwSleep WDTO_8S]) ++ [Ev.tickCall 0] }
            (ms - 8000) := by
        rw [myInternalSleep_ge env s ms h8, hp, hct]
        dsimp only
        rw [if_neg (by omega : ¬((0 : Int) ≠ 0)),
          if_neg (by omega : ¬((0 : Int) ≠ 0))]
      have hrec := prev
        { s with
          wokeUpWhy := 0
          timer0_millis := (s.timer0_millis + 8000) % UINT32_MOD
          nSleeps := s.nSleeps + 1
          nTicks := s.nTicks + 1
          trace := (s.trace ++ [Ev.hwSleep WDTO_8S]) ++ [Ev.tickCall 0] } rfl
      rw [htk] at hrec
      simp only [Option.isSome_some] at hrec
      have he : eventsOf true ms =
          Ev.hwSleep WDTO_8S :: Ev.tickCall 0 :: eventsOf true (ms - 8000) :=
        (eventsOf_ge true ms h8).trans (consOneTick _ _)
      have hasm :=
        asmGenHTick s (eventsOf true (ms - 8000)) (eventsOf true ms) he
      exact hstep.trans (hrec.trans hasm)

theorem internal_ok (env : Env) (hf : FlagZero env) (ht : TickZero env)
    (ms : Nat) : InternalOk env ms := by
  induction ms using Nat.strongRecOn with
  | ind ms ih =>
    by_cases h8 : 8000 ≤ ms
    · exact internal_ok_ge env hf ht ms h8 (ih (ms - 8000) (by omega))
    · exact internal_ok_lt env hf ht ms (by omega)

/-! ## Pure facts about the uninterrupted event lists -/

theorem eventsOf_def (h : Bool) (ms : Nat) :
    eventsOf h ms =
      loopEvents h (ms / 8000) ++ chainEvents (ms % 8000) smallTable ++ tickEvs h := rfl

theorem chainRem_le (tbl : List (Nat × Nat)) : ∀ ms, chainRem ms tbl ≤ ms := by
  induction tbl with
  | nil => intro ms; simp [chainRem]
  | cons p rest ih =>
      intro ms
      obtain ⟨w, q⟩ := p
      by_cases hq : q ≤ ms
      · have := ih (ms - q)
        simp only [chainRem, if_pos hq]
        omega
      · simp only [chainRem, if_neg hq]
        exact ih ms

theorem sleptMS_chain (tbl : List (Nat × Nat)) (hwq : ∀ p ∈ tbl, wdtoMS p.1 = p.2) :
    ∀ ms, sleptMS (chainEvents ms tbl) = ms - chainRem ms tbl := by
  induction tbl with
  | nil => intro ms; simp [chainEvents, chainRem, sleptMS]
  | cons p rest ih =>
      intro ms
      obtain ⟨w, q⟩ := p
      have hwdto : wdtoMS w = q := hwq (w, q) (by simp)
      have hrest : ∀ p ∈ rest, wdtoMS p.1 = p.2 := fun p hp => hwq p (by simp [hp])
      by_cases hq : q ≤ ms
      · have h1 := ih hrest (ms - q)
        have h2 := chainRem_le rest (ms - q)
        simp only [chainEvents, chainRem, if_pos hq, sleptMS, hwdto]
        omega
      · simp only [chainEvents, chainRem, if_neg hq]
        exact ih hrest ms

theorem nSleepEv_chain_len (tbl : List (Nat × Nat)) :
    ∀ ms, nSleepEv (chainEvents ms tbl) = (chainEvents ms tbl).length := by
  induction tbl with
  | nil => intro ms; simp [chainEvents, nSleepEv]
  | cons p rest ih =>
      intro ms
      obtain ⟨w, q⟩ := p
      by_cases hq : q ≤ ms <;>
        simp [chainEvents, hq, nSleepEv, ih]

theorem sleptMS_loop (h : Bool) : ∀ n, sleptMS (loopEvents h n) = 8000 * n := by
  intro n
  induction n with
  | zero => rfl
  | succ m ih =>
      cases h <;>
        simp [loopEvents, tickEvs, sleptMS, sleptMS_append, ih, wdtoMS, WDTO_8S] <;>
        omega

theorem sleptMS_tickEvs (h : Bool) : sleptMS (tickEvs h) = 0 := by
  cases h <;> rfl

theorem nSleepEv_loop (h : Bool) : ∀ n, nSleepEv (loopEvents h n) = n := by
  intro n
  induction n with
  | zero => rfl
  | succ m ih =>
      cases h <;>
        simp [loopEvents, tickEvs, nSleepEv, nSleepEv_append, ih]

theorem nSleepEv_tickEvs (h : Bool) : nSleepEv (tickEvs h) = 0 := by
  cases h <;> rfl

theorem nTickEv_loop (h : Bool) : ∀ n, nTickEv (loopEvents h n) = if h then n else 0 := by
  intro n
  induction n with
  | zero => cases h <;> rfl
  | succ m ih =>
      cases h <;>
        simp_all [loopEvents, tickEvs, nTickEv, nTickEv_append]

theorem sleptMS_events (h : Bool) (ms : Nat) :
    sleptMS (eventsOf h ms) = ms - decompRem ms := by
  have hparts :
      sleptMS (loopEvents h (ms / 8000) ++ chainEvents (ms % 8000) smallTable ++ tickEvs h) =
        ms - decompRem ms := by
    rw [sleptMS_append, sleptMS_append, sleptMS_loop,
      sleptMS_chain smallTable smallTable_wdto, sleptMS_tickEvs]
    have h1 := chainRem_le smallTable (ms % 8000)
    unfold decompRem
    omega
  exact (congrArg sleptMS (eventsOf_def h ms)).trans hparts

theorem nSleepEv_events (h : Bool) (ms : Nat) :
    nSleepEv (eventsOf h ms) =
      ms / 8000 + (chainEvents (ms % 8000) smallTable).length := by
  have hparts :
      nSleepEv (loopEvents h (ms / 8000) ++ chainEvents (ms % 8000) smallTable ++ tickEvs h) =
        ms / 8000 + (chainEvents (ms % 8000) smallTable).length := by
    rw [nSleepEv_append, nSleepEv_append, nSleepEv_loop,
      nSleepEv_chain_len, nSleepEv_tickEvs]
    omega
  exact (congrArg nSleepEv (eventsOf_def h ms)).trans hparts

theorem nTickEv_events_true (ms : Nat) :
    nTickEv (eventsOf true ms) = ms / 8000 + 1 := by
  have hparts :
      nTickEv (loopEvents true (ms / 8000) ++ chainEvents (ms % 8000) smallTable ++ tickEvs true) =
        ms / 8000 + 1 := by
    rw [nTickEv_append, nTickEv_append, nTickEv_loop, nTickEv_chain]
    rfl
  exact (congrArg nTickEv (eventsOf_def true ms)).trans hparts

theorem chainRem_lt_bound (tbl : List (Nat × Nat)) :
    ∀ m B, m < B → chainRem m tbl < boundProp B tbl := by
  induction tbl with
  | nil => intro m B hm; simpa [chainRem, boundProp] using hm
  | cons p rest ih =>
      intro m B hm
      obtain ⟨w, q⟩ := p
      by_cases hq : q ≤ m
      · simp only [chainRem, if_pos hq, boundProp]
        exact ih (m - q) (max (B - q) q) (by omega)
      · simp only [chainRem, if_neg hq, boundProp]
        exact ih m (max (B - q) q) (by omega)

theorem chainRem_bound (m : Nat) (hm : m < 8000) : chainRem m smallTable ≤ 24 := by
  have h := chainRem_lt_bound smallTable m 8000 hm
  have hb : boundProp 8000 smallTable = 25 := rfl
  omega

theorem decompRem_le (ms : Nat) : decompRem ms ≤ 24 :=
  chainRem_bound (ms % 8000) (Nat.mod_lt ms (by omega))

theorem subsetSum_chainRem :
    ∀ b4000 b2000 b1000 b500 b250 b120 b60 b30 b15 : Bool,
      chainRem (subsetSum b4000 b2000 b1000 b500 b250 b120 b60 b30 b15) smallTable = 0 ∧
      subsetSum b4000 b2000 b1000 b500 b250 b120 b60 b30 b15 < 8000 := by decide

theorem decompRem_eq_zero (ms : Nat) (h : Representable ms) : decompRem ms = 0 := by
  obtain ⟨k, b4000, b2000, b1000, b500, b250, b120, b60, b30, b15, hms⟩ := h
  obtain ⟨hzero, hlt⟩ := subsetSum_chainRem b4000 b2000 b1000 b500 b250 b120 b60 b30 b15
  have hmod : ms % 8000 = subsetSum b4000 b2000 b1000 b500 b250 b120 b60 b30 b15 := by
    omega
  unfold decompRem
  rw [hmod, hzero]

/-! ## Interrupted runs -/

theorem stop8000_flag (env : Env) (s : St) (ms : Nat) (h8 : 8000 ≤ ms)
    (hfl : env.flag s.nSleeps % 256 ≠ 0) :
    myInternalSleep env s ms =
      (toInt8 (env.flag s.nSleeps % 256),
       { s with
         wokeUpWhy := env.flag s.nSleeps % 256
         nSleeps := s.nSleeps + 1
         trace := s.trace ++ [Ev.hwSleep WDTO_8S] }) := by
  have hne : toInt8 (env.flag s.nSleeps % 256) ≠ 0 := by
    rw [Ne, toInt8_eq_zero]; omega
  rw [myInternalSleep_ge env s ms h8]
  simp [myPowerDown, doPowerDown, hfl, hne]

theorem step8000_none (env : Env) (s : St) (ms : Nat) (h8 : 8000 ≤ ms)
    (hfl : env.flag s.nSleeps % 256 = 0) (htk : env.tick = none) :
    myInternalSleep env s ms =
      myInternalSleep env
        { s with
          wokeUpWhy := 0
          timer0_millis := (s.timer0_millis + 8000) % UINT32_MOD
          nSleeps := s.nSleeps + 1
          trace := s.trace ++ [Ev.hwSleep WDTO_8S] } (ms - 8000) := by
  have hp : myPowerDown env s WDTO_8S 8000 =
      (0, { s with
            wokeUpWhy := 0
            timer0_millis := (s.timer0_millis + 8000) % UINT32_MOD
            nSleeps := s.nSleeps + 1
            trace := s.trace ++ [Ev.hwSleep WDTO_8S] }) := by
    simp [myPowerDown, doPowerDown, hfl]
  have hct : ∀ x : St, callTick env x = (0, x) := by
    intro x; simp [callTick, htk]
  rw [myInternalSleep_ge env s ms h8, hp, hct]
  dsimp only
  rw [if_neg (by omega : ¬((0 : Int) ≠ 0)),
    if_neg (by omega : ¬((0 : Int) ≠ 0))]

theorem step8000_some (env : Env) (s : St) (ms : Nat) (f : Nat → Int)
    (h8 : 8000 ≤ ms) (hfl : env.flag s.nSleeps % 256 = 0)
    (htk : env.tick = some f) (hv : f s.nTicks = 0) :
    myInternalSleep env s ms =
      myInternalSleep env
        { s with
          wokeUpWhy := 0
          timer0_millis := (s.timer0_millis + 8000) % UINT32_MOD
          nSleeps := s.nSleeps + 1
          nTicks := s.nTicks + 1
          trace := (s.trace ++ [Ev.hwSleep WDTO_8S]) ++ [Ev.tickCall 0] }
        (ms - 8000) := by
  have hp : myPowerDown env s WDTO_8S 8000 =
      (0, { s with
            wokeUpWhy := 0
            timer0_millis := (s.timer0_millis + 8000) % UINT32_MOD
            nSleeps := s.nSleeps + 1
            trace := s.trace ++ [Ev.hwSleep WDTO_8S] }) := by
    simp [myPowerDown, doPowerDown, hfl]
  rw [myInternalSleep_ge env s ms h8, hp]
  dsimp only
  rw [if_neg (by omega : ¬((0 : Int) ≠ 0))]
  have hct : callTick env
      { s with
        wokeUpWhy := 0
        timer0_millis := (s.timer0_millis + 8000) % UINT32_MOD
        nSleeps := s.nSleeps + 1
        trace := s.trace ++ [Ev.hwSleep WDTO_8S] } =
      (0, { s with
            wokeUpWhy := 0
            timer0_millis := (s.timer0_millis + 8000) % UINT32_MOD
            nSleeps := s.nSleeps + 1
            nTicks := s.nTicks + 1
            trace := (s.trace ++ [Ev.hwSleep WDTO_8S]) ++ [Ev.tickCall 0] }) := by
    simp [callTick, htk, hv]
  rw [hct]
  dsimp only
  rw [if_neg (by omega : ¬((0 : Int) ≠ 0))]

theorem stop8000_tick (env : Env) (s : St) (ms : Nat) (f : Nat → Int)
    (h8 : 8000 ≤ ms) (hfl : env.flag s.nSleeps % 256 = 0)
    (htk : env.tick = some f) (hv : f s.nTicks ≠ 0) :
    myInternalSleep env s ms =
      (f s.nTicks,
       { s with
         wokeUpWhy := 0
         timer0_millis := (s.timer0_millis + 8000) % UINT32_MOD
         nSleeps := s.nSleeps + 1
         nTicks := s.nTicks + 1
         trace := (s.trace ++ [Ev.hwSleep WDTO_8S]) ++ [Ev.tickCall (f s.nTicks)] }) := by
  have hp : myPowerDown env s WDTO_8S 8000 =
      (0, { s with
            wokeUpWhy := 0
            timer0_millis := (s.timer0_millis + 8000) % UINT32_MOD
            nSleeps := s.nSleeps + 1
            trace := s.trace ++ [Ev.hwSleep WDTO_8S] }) := by
    simp [myPowerDown, doPowerDown, hfl]
  rw [myInternalSleep_ge env s ms h8, hp]
  dsimp only
  rw [if_neg (by omega : ¬((0 : Int) ≠ 0))]
  have hct : callTick env
      { s with
        wokeUpWhy := 0
        timer0_millis := (s.timer0_millis + 8000) % UINT32_MOD
        nSleeps := s.nSleeps + 1
        trace := s.trace ++ [Ev.hwSleep WDTO_8S] } =
      (f s.nTicks,
       { s with
         wokeUpWhy := 0
         timer0_millis := (s.timer0_millis + 8000) % UINT32_MOD
         nSleeps := s.nSleeps + 1
         nTicks := s.nTicks + 1
         trace := (s.trace ++ [Ev.hwSleep WDTO_8S]) ++ [Ev.tickCall (f s.nTicks)] }) := by
    simp [callTick, htk]
  rw [hct]
  dsimp only
  rw [if_pos hv]

theorem runChain_interrupt (env : Env) :
    ∀ (tbl : List (Nat × Nat)) (s : St) (ms k : Nat),
    k < (chainEvents ms tbl).length →
    (∀ j, j < k → env.flag (s.nSleeps + j) % 256 = 0) →
    env.flag (s.nSleeps + k) % 256 ≠ 0 →
    (runChain env s ms tbl).1 = some (toInt8 (env.flag (s.nSleeps + k) % 256)) ∧
    (runChain env s ms tbl).2.1.nSleeps = s.nSleeps + k + 1 := by
  intro tbl
  induction tbl with
  | nil =>
      intro s ms k hk hf0 hfk
      simp [chainEvents] at hk
  | cons p rest ih =>
      intro s ms k hk hf0 hfk
      obtain ⟨w, q⟩ := p
      by_cases hq : q ≤ ms
      · cases k with
        | zero =>
            have hfl : env.flag s.nSleeps % 256 ≠ 0 := by
              simpa using hfk
            have hne : toInt8 (env.flag s.nSleeps % 256) ≠ 0 := by
              rw [Ne, toInt8_eq_zero]; omega
            rw [runChain, if_pos hq]
            simp [myPowerDown, doPowerDown, hfl, hne]
        | succ j =>
            have hfl : env.flag s.nSleeps % 256 = 0 := hf0 0 (by omega)
            have hp : myPowerDown env s w q =
                (0, { s with
                      wokeUpWhy := 0
                      timer0_millis := (s.timer0_millis + q) % UINT32_MOD
                      nSleeps := s.nSleeps + 1
                      trace := s.trace ++ [Ev.hwSleep w] }) := by
              simp [myPowerDown, doPowerDown, hfl]
            rw [runChain, if_pos hq, hp]
            dsimp only
            rw [if_neg (by omega : ¬((0 : Int) ≠ 0))]
            have hk' : j < (chainEvents (ms - q) rest).length := by
              have : (chainEvents ms ((w, q) :: rest)).length =
                  (chainEvents (ms - q) rest).length + 1 := by
                simp [chainEvents, hq]
              omega
            have hf0' : ∀ i, i < j →
                env.flag (s.nSleeps + 1 + i) % 256 = 0 := by
              intro i hi
              have := hf0 (i + 1) (by omega)
              rw [show s.nSleeps + 1 + i = s.nSleeps + (i + 1) from by omega]
              exact this
            have hfk' : env.flag (s.nSleeps + 1 + j) % 256 ≠ 0 := by
              rw [show s.nSleeps + 1 + j = s.nSleeps + (j + 1) from by omega]
              exact hfk
            obtain ⟨ih1, ih2⟩ := ih
              { s with
                wokeUpWhy := 0
                timer0_millis := (s.timer0_millis + q) % UINT32_MOD
                nSleeps := s.nSleeps + 1
                trace := s.trace ++ [Ev.hwSleep w] } (ms - q) j hk' hf0' hfk'
            dsimp only at ih1 ih2
            constructor
            · rw [ih1]
              rw [show s.nSleeps + 1 + j = s.nSleeps + (j + 1) from by omega]
            · rw [ih2]
              omega
      · have hk' : k < (chainEvents ms rest).length := by
          have : chainEvents ms ((w, q) :: rest) = chainEvents ms rest := by
            simp [chainEvents, hq]
          rw [this] at hk
          exact hk
        rw [runChain, if_neg hq]
        exact ih s ms k hk' hf0 hfk

theorem nSleepEv_events_step (h : Bool) (ms : Nat) (h8 : 8000 ≤ ms) :
    nSleepEv (eventsOf h ms) = nSleepEv (eventsOf h (ms - 8000)) + 1 := by
  have h1 := nSleepEv_events h ms
  have h2 := nSleepEv_events h (ms - 8000)
  have hmod : ms % 8000 = (ms - 8000) % 8000 := by omega
  rw [hmod] at h1
  have hdiv : ms / 8000 = (ms - 8000) / 8000 + 1 := by omega
  omega

theorem nSleepEv_events_lt (h : Bool) (ms : Nat) (hms : ms < 8000) :
    nSleepEv (eventsOf h ms) = (chainEvents ms smallTable).length := by
  have h1 := nSleepEv_events h ms
  have hmod : ms % 8000 = ms := by omega
  rw [hmod] at h1
  have hdiv : ms / 8000 = 0 := by omega
  omega

theorem internal_interrupt (env : Env) (ht : TickZero env) :
    ∀ ms : Nat, ∀ (s : St) (k : Nat),
    k < nSleepEv (eventsOf env.tick.isSome ms) →
    (∀ j, j < k → env.flag (s.nSleeps + j) % 256 = 0) →
    env.flag (s.nSleeps + k) % 256 ≠ 0 →
    (myInternalSleep env s ms).1 = toInt8 (env.flag (s.nSleeps + k) % 256) ∧
    (myInternalSleep env s ms).2.nSleeps = s.nSleeps + k + 1 := by
  intro ms
  induction ms using Nat.strongRecOn with
  | ind ms ih =>
    intro s k hk hf0 hfk
    by_cases h8 : 8000 ≤ ms
    · cases k with
      | zero =>
          have hfl : env.flag s.nSleeps % 256 ≠ 0 := by simpa using hfk
          rw [stop8000_flag env s ms h8 hfl]
          constructor
          · simp
          · simp
      | succ j =>
          have hfl : env.flag s.nSleeps % 256 = 0 := hf0 0 (by omega)
          have hkstep := nSleepEv_events_step env.tick.isSome ms h8
          have hk' : j < nSleepEv (eventsOf env.tick.isSome (ms - 8000)) := by
            omega
          have hf0' : ∀ i, i < j → env.flag (s.nSleeps + 1 + i) % 256 = 0 := by
            intro i hi
            have := hf0 (i + 1) (by omega)
            rw [show s.nSleeps + 1 + i = s.nSleeps + (i + 1) from by omega]
            exact this
          have hfk' : env.flag (s.nSleeps + 1 + j) % 256 ≠ 0 := by
            rw [show s.nSleeps + 1 + j = s.nSleeps + (j + 1) from by omega]
            exact hfk
          cases htk : env.tick with
          | none =>
              rw [step8000_none env s ms h8 hfl htk]
              obtain ⟨ih1, ih2⟩ := ih (ms - 8000) (by omega)
                { s with
                  wokeUpWhy := 0
                  timer0_millis := (s.timer0_millis + 8000) % UINT32_MOD
                  nSleeps := s.nSleeps + 1
                  trace := s.trace ++ [Ev.hwSleep WDTO_8S] } j hk' hf0' hfk'
              dsimp only at ih1 ih2
              constructor
              · rw [ih1]
                rw [show s.nSleeps + 1 + j = s.nSleeps + (j + 1) from by omega]
              · rw [ih2]
                omega
          | some f =>
              rw [step8000_some env s ms f h8 hfl htk (ht f s.nTicks htk)]
              obtain ⟨ih1, ih2⟩ := ih (ms - 8000) (by omega)
                { s with
                  wokeUpWhy := 0
                  timer0_millis := (s.timer0_millis + 8000) % UINT32_MOD
                  nSleeps := s.nSleeps + 1
                  nTicks := s.nTicks + 1
                  trace := (s.trace ++ [Ev.hwSleep WDTO_8S]) ++ [Ev.tickCall 0] }
                j hk' hf0' hfk'
              dsimp only at ih1 ih2
              constructor
              · rw [ih1]
                rw [show s.nSleeps + 1 + j = s.nSleeps + (j + 1) from by omega]
              · rw [ih2]
                omega
    · have hk' : k < (chainEvents ms smallTable).length := by
        have := nSleepEv_events_lt env.tick.isSome ms (by omega)
        omega
      obtain ⟨h1, h2⟩ := runChain_interrupt env smallTable s ms k hk' hf0 hfk
      rw [myInternalSleep_lt env s ms (by omega)]
      rcases hc : runChain env s ms smallTable with ⟨o, s1, r⟩
      rw [hc] at h1 h2
      dsimp only at h1 h2
      subst h1
      constructor
      · rfl
      · exact h2

theorem internal_tick (env : Env) (f : Nat → Int) (htk : env.tick = some f)
    (hf : FlagZero env) :
    ∀ ms : Nat, ∀ (s : St) (n : Nat), s.wokeUpWhy = 0 →
    (∀ j, j < n → f (s.nTicks + j) = 0) →
    f (s.nTicks + n) ≠ 0 →
    n ≤ ms / 8000 →
    (myInternalSleep env s ms).1 = f (s.nTicks + n) ∧
    (myInternalSleep env s ms).2.nSleeps =
      s.nSleeps + (if n < ms / 8000 then n + 1 else nSleepEv (eventsOf true ms)) := by
  intro ms
  induction ms using Nat.strongRecOn with
  | ind ms ih =>
    intro s n hw hf0 hfk hn
    by_cases h8 : 8000 ≤ ms
    · cases n with
      | zero =>
          have hv : f s.nTicks ≠ 0 := by simpa using hfk
          rw [stop8000_tick env s ms f h8 (hf s.nSleeps) htk hv]
          constructor
          · simp
          · rw [if_pos (by omega : 0 < ms / 8000)]
      | succ m =>
          have hv0 : f s.nTicks = 0 := by simpa using hf0 0 (by omega)
          rw [step8000_some env s ms f h8 (hf s.nSleeps) htk hv0]
          have hf0' : ∀ j, j < m → f (s.nTicks + 1 + j) = 0 := by
            intro j hj
            have := hf0 (j + 1) (by omega)
            rw [show s.nTicks + 1 + j = s.nTicks + (j + 1) from by omega]
            exact this
          have hfk' : f (s.nTicks + 1 + m) ≠ 0 := by
            rw [show s.nTicks + 1 + m = s.nTicks + (m + 1) from by omega]
            exact hfk
          have hdiv : ms / 8000 = (ms - 8000) / 8000 + 1 := by omega
          have hn' : m ≤ (ms - 8000) / 8000 := by omega
          obtain ⟨ih1, ih2⟩ := ih (ms - 8000) (by omega)
            { s with
              wokeUpWhy := 0
              timer0_millis := (s.timer0_millis + 8000) % UINT32_MOD
              nSleeps := s.nSleeps + 1
              nTicks := s.nTicks + 1
              trace := (s.trace ++ [Ev.hwSleep WDTO_8S]) ++ [Ev.tickCall 0] }
            m rfl hf0' hfk' hn'
          dsimp only at ih1 ih2
          constructor
          · rw [ih1]
            rw [show s.nTicks + 1 + m = s.nTicks + (m + 1) from by omega]
          · by_cases hc : m < (ms - 8000) / 8000
            · rw [ih2, if_pos hc, if_pos (by omega : m + 1 < ms / 8000)]
              omega
            · have hstep := nSleepEv_events_step true ms h8
              rw [ih2, if_neg hc, if_neg (by omega : ¬(m + 1 < ms / 8000))]
              omega
    · have hn0 : n = 0 := by
        have : ms / 8000 = 0 := by omega
        omega
      subst hn0
      rw [myInternalSleep_lt env s ms (by omega)]
      rw [runChain_ok env hf smallTable smallTable_wdto s ms hw]
      dsimp only
      have hct : ∀ x : St, callTick env x =
          (f x.nTicks,
           { x with
             nTicks := x.nTicks + 1
             trace := x.trace ++ [Ev.tickCall (f x.nTicks)] }) := by
        intro x; simp [callTick, htk]
      rw [hct]
      dsimp only
      constructor
      · simp
      · rw [if_neg (by omega : ¬(0 < ms / 8000))]
        have e1 := nSleepEv_events_lt true ms (by omega)
        have e2 := nSleepEv_chain_len smallTable ms
        omega

/-! ## The readiness guard (`snooze`) -/

theorem waitLoop_stop (env : Env) (timeout ms enter : Nat)
    (hnr : ∀ i, env.transportReady i = false) :
    ∀ (fuel delta j d : Nat),
      waitLoop env timeout ms enter delta j fuel = some d →
      ¬(d < ms ∧ d < timeout) := by
  intro fuel
  induction fuel with
  | zero =>
      intro delta j d h
      simp [waitLoop] at h
  | succ n ih =>
      intro delta j d h
      rw [waitLoop] at h
      by_cases hc : delta < ms ∧ delta < timeout
      · rw [if_pos ⟨hnr j, hc.1, hc.2⟩] at h
        exact ih _ _ _ h
      · have hnc : ¬(env.transportReady j = false ∧ delta < ms ∧ delta < timeout) := by
          intro hh
          exact hc ⟨hh.2.1, hh.2.2⟩
        rw [if_neg hnc] at h
        injection h with h'
        subst h'
        intro hh
        exact hc ⟨hh.1, hh.2⟩

theorem flagZero_env0 : FlagZero env0 := fun _ => rfl

theorem flagZero_envT : FlagZero envT := fun _ => rfl

theorem flagZero_envK : FlagZero envK := fun _ => rfl

theorem flagZero_envC2 : FlagZero envC2 := fun _ => rfl

theorem flagZero_envW : FlagZero envW := fun _ => rfl

theorem tickZero_of_none (env : Env) (h : env.tick = none) : TickZero env := by
  intro f k hh
  rw [h] at hh
  exact absurd hh (by simp)

theorem tickZero_envT : TickZero envT := by
  intro f k hh
  have h2 : (some (fun _ => (0 : Int)) : Option (Nat → Int)) = some f := hh
  have h3 : (fun _ => (0 : Int)) = f := by
    injection h2
  rw [← h3]

/-- C2 (amended): when the transport is not ready and never becomes ready
during the wait, `snooze` aborts with `MY_SLEEP_NOT_POSSIBLE` — leaving the
state untouched, so the Scheduler is never invoked — whenever the requested
`ms` is at most the reconnect-timeout deadline, and more generally whenever
the elapsed wait `d` has consumed the whole requested duration.  (When
`ms` exceeds the deadline, the deadline elapsing does *not* abort: see the
counterexample.) -/
theorem snooze_notready_aborts (env : Env) (timeout fuel ms d : Nat)
    (smart : Bool) (s : St)
    (hnr : ∀ i, env.transportReady i = false)
    (hloop : waitLoop env timeout ms (env.hwMillis 0 % UINT32_MOD) 0 1 fuel =
      some d) :
    (ms ≤ timeout →
      snooze env timeout fuel ms smart s = some (MY_SLEEP_NOT_POSSIBLE, s)) ∧
    (ms ≤ d →
      snooze env timeout fuel ms smart s = some (MY_SLEEP_NOT_POSSIBLE, s)) := by
  have hstop := waitLoop_stop env timeout ms (env.hwMillis 0 % UINT32_MOD)
    hnr fuel 0 1 d hloop
  have key : ¬(d < ms) →
      snooze env timeout fuel ms smart s = some (MY_SLEEP_NOT_POSSIBLE, s) := by
    intro hd
    simp only [snooze, hnr 0]
    simp only [Bool.false_eq_true, if_false]
    rw [hloop]
    dsimp only
    rw [if_neg hd]
  constructor
  · intro hms
    exact key (by omega)
  · intro hms
    exact key (by omega)

/-- C10: `snooze(0)` with the transport not ready returns
`MY_SLEEP_NOT_POSSIBLE` immediately: the readiness-wait loop runs zero
iterations (its `sleepDeltaMS < sleepingTimeMS` bound is false at 0), the
state is untouched, and no hardware sleep of any kind is entered. -/
theorem snooze_zero_notready (env : Env) (timeout fuel : Nat) (smart : Bool)
    (s : St) (h0 : env.transportReady 0 = false) (hfuel : 1 ≤ fuel) :
    snooze env timeout fuel 0 smart s = some (MY_SLEEP_NOT_POSSIBLE, s) := by
  obtain ⟨n, rfl⟩ : ∃ n, fuel = n + 1 := ⟨fuel - 1, by omega⟩
  have hwl : waitLoop env timeout 0 (env.hwMillis 0 % UINT32_MOD) 0 1 (n + 1) =
      some 0 := by
    rw [waitLoop]
    rw [if_neg (by intro hh; omega)]
  simp only [snooze, h0]
  simp only [Bool.false_eq_true, if_false]
  rw [hwl]
  dsimp only
  rw [if_neg (by omega : ¬(0 < 0))]

/-- C2 counterexample: with the transport never ready, the reconnect
deadline (10000 ms) elapsing does not abort a 20000 ms request: `snooze`
goes on to invoke the Scheduler for the remaining 10000 ms and returns
`MY_WAKE_UP_BY_TIMER`, not `MY_SLEEP_NOT_POSSIBLE` — refuting "if the
dependency does not become ready before the deadline elapses, the
operation aborts and the Scheduler is never invoked". -/
theorem snooze_deadline_counterexample :
    snooze envC2 10000 5 20000 false St0 =
      some (MY_WAKE_UP_BY_TIMER,
        { wokeUpWhy := 0, timer0_millis := 10000, nSleeps := 2, nTicks := 0,
          trace := [Ev.schedulerInvoked 10000, Ev.hwSleep WDTO_8S,
            Ev.hwSleep WDTO_2S] }) ∧
    MY_WAKE_UP_BY_TIMER ≠ MY_SLEEP_NOT_POSSIBLE ∧
    Ev.schedulerInvoked 10000 ∈
      ({ wokeUpWhy := 0, timer0_millis := 10000, nSleeps := 2, nTicks := 0,
         trace := [Ev.schedulerInvoked 10000, Ev.hwSleep WDTO_8S,
           Ev.hwSleep WDTO_2S] } : St).trace := by
  refine ⟨?_, by decide, by decide⟩
  have hint := internal_ok envC2 flagZero_envC2 (tickZero_of_none envC2 rfl)
    10000 (St.mk 0 0 0 0 [Ev.schedulerInvoked 10000]) rfl
  have hms : mySleep envC2 (St.mk 0 0 0 0 [Ev.schedulerInvoked 10000]) 10000 =
      (MY_WAKE_UP_BY_TIMER,
       St.mk 0 10000 2 0 [Ev.schedulerInvoked 10000, Ev.hwSleep WDTO_8S,
         Ev.hwSleep WDTO_2S]) := by
    simp only [mySleep]
    rw [if_pos (by omega : (0 : Nat) < 10000)]
    rw [hint]
    decide
  have hwl : waitLoop envC2 10000 20000 (envC2.hwMillis 0 % UINT32_MOD) 0 1 5 =
      some 10000 := by decide
  simp only [snooze]
  rw [show envC2.transportReady 0 = false from rfl]
  simp only [Bool.false_eq_true, if_false]
  rw [hwl]
  dsimp only
  rw [if_pos (by omega : 10000 < 20000)]
  norm_num [St0]
  rw [hms]

/-! ## Claim theorems: the decomposition -/

/-- C1 (amended): in an uninterrupted run the total duration slept equals
`ms` minus the residue left by the decomposition (unbounded 8000 ms
quanta, each smaller table entry at most once); that residue is at most
24 ms (not necessarily `ms mod 15`), and it is zero — sleep exactly `ms` —
whenever `ms` is `8000·k` plus a sum of distinct smaller table entries. -/
theorem sleptSum_amended (env : Env) (s : St) (ms : Nat)
    (hf : FlagZero env) (ht : TickZero env) (hw : s.wokeUpWhy = 0) :
    sleptMS ((myInternalSleep env s ms).2.trace) =
      sleptMS s.trace + (ms - decompRem ms) ∧
    decompRem ms ≤ 24 ∧
    (Representable ms → decompRem ms = 0) := by
  refine ⟨?_, decompRem_le ms, decompRem_eq_zero ms⟩
  have h := internal_ok env hf ht ms s hw
  have h2 : (myInternalSleep env s ms).2.trace =
      s.trace ++ eventsOf env.tick.isSome ms := by
    rw [h]
  rw [h2, sleptMS_append, sleptMS_events]

/-- C1 counterexample: for `ms = 8005` the uninterrupted run sleeps
8000 ms, which is not 8005 rounded down to a multiple of 15 (7995); and
`ms = 7990` is an exact sum of table entries
(4000+2000+1000+500+250+120+120) yet the run sleeps only 7975 ms, because
each sub-8000 entry is used at most once. -/
theorem sleptSum_counterexample :
    sleptMS ((myInternalSleep env0 St0 8005).2.trace) = 8000 ∧
    (8000 : Nat) ≠ 15 * (8005 / 15) ∧
    sleptMS ((myInternalSleep env0 St0 7990).2.trace) = 7975 ∧
    (7990 : Nat) = 4000 + 2000 + 1000 + 500 + 250 + 120 + 120 := by
  have h1 := internal_ok env0 flagZero_env0 (tickZero_of_none env0 rfl)
    8005 St0 rfl
  have h2 := internal_ok env0 flagZero_env0 (tickZero_of_none env0 rfl)
    7990 St0 rfl
  refine ⟨?_, by norm_num, ?_, by norm_num⟩
  · rw [h1]
    decide
  · rw [h2]
    decide

/-- C3 (amended): in an uninterrupted run with the callback linked, the
callback is invoked exactly `ms / 8000 + 1` times — once after each
completed 8000 ms quantum, plus one final invocation at the end of the
decomposition — which is bounded by `ceil(ms/8000) + 1`, not by
`ceil(ms/8000)`. -/
theorem tick_count_amended (env : Env) (s : St) (ms : Nat) (f : Nat → Int)
    (htk : env.tick = some f) (hf : FlagZero env) (ht : TickZero env)
    (hw : s.wokeUpWhy = 0) :
    (myInternalSleep env s ms).2.nTicks = s.nTicks + (ms / 8000 + 1) ∧
    ms / 8000 + 1 ≤ (ms + 7999) / 8000 + 1 := by
  constructor
  · have h := internal_ok env hf ht ms s hw
    have h2 : (myInternalSleep env s ms).2.nTicks =
        s.nTicks + nTickEv (eventsOf env.tick.isSome ms) := by
      rw [h]
    rw [h2, htk]
    simp only [Option.isSome_some]
    rw [nTickEv_events_true]
  · have : ms / 8000 ≤ (ms + 7999) / 8000 := Nat.div_le_div_right (by omega)
    omega

/-- C3 counterexample: the completed run for `ms = 8000` (no interrupts,
callback always 0) sleeps exactly one quantum but invokes the callback
twice — once after the 8000 ms quantum and once more at the end — so the
callback count exceeds `ceil(8000/8000) = 1` and is not "exactly once per
quantum actually slept". -/
theorem tick_count_counterexample :
    (myInternalSleep envT St0 8000).2.nTicks = 2 ∧
    nSleepEv ((myInternalSleep envT St0 8000).2.trace) = 1 ∧
    ¬((myInternalSleep envT St0 8000).2.nTicks ≤ (8000 + 8000 - 1) / 8000) := by
  have h := internal_ok envT flagZero_envT tickZero_envT 8000 St0 rfl
  refine ⟨?_, ?_, ?_⟩
  · rw [h]; decide
  · rw [h]; decide
  · rw [h]; decide

/-- C4: once a non-continue outcome occurs mid-decomposition no further
quanta are attempted.  Part 1: if the first k flag observations are clear
and the k-th quantum of the decomposition ends with the Wake Flag non-zero
(callback never requesting wake), the run returns that flag value (as
`int8_t`) after exactly k+1 hardware sleeps.  Part 2: if no interrupt ever
fires and the callback's n-th invocation is the first to return non-zero,
the run returns that value, after n+1 quanta when the invocation happens
inside the 8000 ms loop, and after the full decomposition when it is the
final invocation; the remaining requested time is abandoned in all
cases. -/
theorem early_return_no_further_quanta (env : Env) (s : St) (ms k n : Nat)
    (f : Nat → Int) :
    (TickZero env →
     k < nSleepEv (eventsOf env.tick.isSome ms) →
     (∀ j, j < k → env.flag (s.nSleeps + j) % 256 = 0) →
     env.flag (s.nSleeps + k) % 256 ≠ 0 →
     (myInternalSleep env s ms).1 = toInt8 (env.flag (s.nSleeps + k) % 256) ∧
     (myInternalSleep env s ms).2.nSleeps = s.nSleeps + k + 1) ∧
    (env.tick = some f →
     FlagZero env →
     s.wokeUpWhy = 0 →
     (∀ j, j < n → f (s.nTicks + j) = 0) →
     f (s.nTicks + n) ≠ 0 →
     n ≤ ms / 8000 →
     (myInternalSleep env s ms).1 = f (s.nTicks + n) ∧
     (myInternalSleep env s ms).2.nSleeps =
       s.nSleeps +
         (if n < ms / 8000 then n + 1 else nSleepEv (eventsOf true ms))) :=
  ⟨fun ht hk hf0 hfk => internal_interrupt env ht ms s k hk hf0 hfk,
   fun htk hf hw hf0 hfk hn => internal_tick env f htk hf ms s n hw hf0 hfk hn⟩

/-- C7: the uninterrupted request `ms = 9015` sleeps exactly one 8000 ms
quantum, then one 1000 ms quantum, then one 15 ms quantum, in that order,
and no other quanta — greedy selection over the descending table. -/
theorem greedy_9015 (env : Env) (s : St)
    (hf : FlagZero env) (ht : TickZero env) (hw : s.wokeUpWhy = 0) :
    quantaMS ((myInternalSleep env s 9015).2.trace) =
      quantaMS s.trace ++ [8000, 1000, 15] := by
  have h := internal_ok env hf ht 9015 s hw
  have h2 : (myInternalSleep env s 9015).2.trace =
      s.trace ++ eventsOf env.tick.isSome 9015 := by
    rw [h]
  rw [h2, quantaMS_append]
  cases htk : env.tick.isSome
  · rw [show quantaMS (eventsOf false 9015) = [8000, 1000, 15] from by decide]
  · rw [show quantaMS (eventsOf true 9015) = [8000, 1000, 15] from by decide]

/-! ## Witnesses -/

/-- Witness for C1 at the concrete uninterrupted request `ms = 9015`. -/
theorem sleptSum_amended_witness :
    sleptMS ((myInternalSleep env0 St0 9015).2.trace) =
      sleptMS St0.trace + (9015 - decompRem 9015) ∧
    decompRem 9015 ≤ 24 ∧
    (Representable 9015 → decompRem 9015 = 0) :=
  sleptSum_amended env0 St0 9015 flagZero_env0 (tickZero_of_none env0 rfl) rfl

/-- Witness for C2: transport never ready, `ms = 5000` below the 10000 ms
deadline, the wait exhausts the request, and `snooze` aborts untouched. -/
theorem snooze_notready_aborts_witness :
    snooze envW 10000 3 5000 false St0 = some (MY_SLEEP_NOT_POSSIBLE, St0) :=
  (snooze_notready_aborts envW 10000 3 5000 6000 false St0
    (fun _ => rfl) (by decide)).1 (by omega)

/-- Witness for C3 at `ms = 9015` with the always-zero callback linked. -/
theorem tick_count_amended_witness :
    (myInternalSleep envT St0 9015).2.nTicks = St0.nTicks + (9015 / 8000 + 1) ∧
    9015 / 8000 + 1 ≤ (9015 + 7999) / 8000 + 1 :=
  tick_count_amended envT St0 9015 (fun _ => 0) rfl flagZero_envT
    tickZero_envT rfl

/-- Witness for C4: an interrupt flag of 5 after the first quantum of a
9015 ms request ends the run after exactly one quantum with value 5; a
callback returning 7 on its first invocation ends the run after exactly
one quantum with value 7. -/
theorem early_return_witness :
    ((myInternalSleep envI St0 9015).1 =
        toInt8 (envI.flag (St0.nSleeps + 0) % 256) ∧
      (myInternalSleep envI St0 9015).2.nSleeps = St0.nSleeps + 0 + 1) ∧
    ((myInternalSleep envK St0 9015).1 = (fun _ => (7 : Int)) (St0.nTicks + 0) ∧
      (myInternalSleep envK St0 9015).2.nSleeps =
        St0.nSleeps +
          (if 0 < 9015 / 8000 then 0 + 1 else nSleepEv (eventsOf true 9015))) :=
  ⟨(early_return_no_further_quanta envI St0 9015 0 0 (fun _ => 0)).1
      (tickZero_of_none envI rfl) (by decide)
      (fun j hj => absurd hj (by omega)) (by decide),
   (early_return_no_further_quanta envK St0 9015 0 0 (fun _ => 7)).2
      rfl flagZero_envK rfl
      (fun j hj => absurd hj (by omega)) (by decide) (by omega)⟩

/-- Witness for C7 in the quiet environment from the initial state. -/
theorem greedy_9015_witness :
    quantaMS ((myInternalSleep env0 St0 9015).2.trace) =
      quantaMS St0.trace ++ [8000, 1000, 15] :=
  greedy_9015 env0 St0 flagZero_env0 (tickZero_of_none env0 rfl) rfl

/-- Witness for C10: transport not ready, `ms = 0`, immediate abort. -/
theorem snooze_zero_notready_witness :
    snooze envW 10000 1 0 false St0 = some (MY_SLEEP_NOT_POSSIBLE, St0) :=
  snooze_zero_notready envW 10000 1 false St0 rfl (by omega)
